import Mathlib

/-!
Verification development for the generative-model core of the GenerativeRL
repository.  Tensors are embedded shallowly: a rank-1 tensor of rationals is a
`List ℚ` (a row), a rank-2 tensor is a list of rows.  Elementwise torch
operations become `List.map` / `List.zipWith`; `torch.repeat_interleave`
along dimension 0 becomes replication of rows.  Neural networks are arbitrary
functions on tensors, and ODE solvers are arbitrary integrators consuming a
drift field, an initial state and a time span, returning the trajectory of
states.
-/

namespace GRL

/-- A rank-1 tensor of rationals. -/
abbrev Row : Type := List ℚ

/-- A rank-2 tensor: a batch of rows. -/
abbrev Mat : Type := List Row

/-- Three-way zip, used to embed elementwise torch expressions over three
tensors of matching shape. -/
def zipWith3 (f : α → β → γ → δ) : List α → List β → List γ → List δ
  | a :: as, b :: bs, c :: cs => f a b c :: zipWith3 f as bs cs
  | _, _, _ => []

/-- Elementwise addition of two rows (torch tensor addition). -/
def addRow (r s : Row) : Row := List.zipWith (fun a b => a + b) r s

/-- Scalar multiplication of a row (torch scalar times tensor). -/
def smulRow (c : ℚ) (r : Row) : Row := r.map (fun a => c * a)

/-- Elementwise addition of two rank-2 tensors. -/
def addMat (m n : Mat) : Mat := List.zipWith addRow m n

/-- Scalar multiplication of a rank-2 tensor. -/
def smulMat (c : ℚ) (m : Mat) : Mat := m.map (smulRow c)

/-- The shape of a rank-2 tensor: the list of its row lengths. -/
def matShape (m : Mat) : List Nat := m.map List.length

/-- Entry (b, d) of a rank-2 tensor, with default 0 out of range. -/
def entry2 (m : Mat) (b d : Nat) : ℚ := (m.getD b []).getD d 0

namespace StochasticProcess

/-- Embeds StochasticProcess.mean of grl/generative_models/stochastic_process.py
for a rank-1 time tensor t of shape (B,) and rank-2 states x0, x1 of shape
(B, D).  Since len(x0.shape) = 2 > 1 = len(t.shape) the code takes the branch
that appends singleton axes to t and expands it to the shape of x0, so row b of
the result uses the scalar time t[b] in the elementwise expression
x0 * (1 - t) + x1 * t. -/
def mean (t : Row) (x0 x1 : Mat) : Mat :=
  zipWith3 (fun tb r0 r1 =>
    List.zipWith (fun a b => a * (1 - tb) + b * tb) r0 r1) t x0 x1

/-- Embeds the plain branch of StochasticProcess.mean, taken when t has as many
dimensions as x0: the raw elementwise expression x0 * (1 - t) + x1 * t on
rank-1 tensors of equal shape. -/
def meanPlain (t x0 x1 : Row) : Row :=
  zipWith3 (fun tb a b => a * (1 - tb) + b * tb) t x0 x1

/-- Embeds StochasticProcess.mean for a scalar (rank-0) time t and rank-1
states x0, x1 of shape (D): the reshape branch expands t to the shape of x0
and the result is the elementwise x0 * (1 - t) + x1 * t. -/
def meanScalarT (t : ℚ) (x0 x1 : Row) : Row :=
  List.zipWith (fun a b => a * (1 - t) + b * t) x0 x1

/-- Embeds StochasticProcess.velocity of
grl/generative_models/stochastic_process.py: it returns x1 - x0 elementwise;
the time t and the condition are unused by the code. -/
def velocity (t : ℚ) (x0 x1 : Row) : Row :=
  List.zipWith (fun b a => b - a) x1 x0

end StochasticProcess

/-- Embeds asymmetric_l2_loss of grl/algorithms/idql.py and
grl/algorithms/gp_standard.py (the two definitions are identical):
torch.mean(torch.abs(tau - (u < 0).float()) * u ** 2), with the mean of a
tensor embedded as the sum of its entries divided by their number. -/
def asymmetric_l2_loss (u : List ℚ) (tau : ℚ) : ℚ :=
  ((u.map (fun x => |tau - (if x < 0 then (1 : ℚ) else 0)| * x ^ 2)).sum) /
    (u.length : ℚ)

/-- Embeds the TD regression target computed inside IDQLCritic.q_loss of
grl/algorithms/idql.py: targets = reward + (1 - done.float()) * discount *
next_v, elementwise over the batch, with done a boolean tensor. -/
def q_loss_targets (reward : Row) (done : List Bool) (next_v : Row)
    (discount : ℚ) : Row :=
  zipWith3 (fun r d v => r + (1 - (if d then (1 : ℚ) else 0)) * discount * v)
    reward done next_v

/-- Embeds the TD regression target computed inside GPCritic.iql_q_loss of
grl/algorithms/gp_standard.py: q_target = reward + (1 - done.float()) *
discount * next_v, elementwise over the batch. -/
def iql_q_loss_target (reward : Row) (done : List Bool) (next_v : Row)
    (discount : ℚ) : Row :=
  zipWith3 (fun r d v => r + (1 - (if d then (1 : ℚ) else 0)) * discount * v)
    reward done next_v

/-- The running state of the episode loop in D4RLDataset.return_range of
generative_rl/datasets/d4rl.py: the list of completed-episode returns, the
list of completed-episode lengths, and the accumulators of the episode
currently open. -/
structure ReturnRangeState where
  returns : List ℚ
  lengths : List Nat
  ep_ret : ℚ
  ep_len : Nat
deriving DecidableEq

/-- One iteration of the loop body of D4RLDataset.return_range: accumulate the
reward and the step count, and when the terminal flag is set or the episode
length reaches max_episode_steps, close the episode and reset the
accumulators. -/
def return_range_step (max_episode_steps : Nat) (s : ReturnRangeState)
    (rd : ℚ × Bool) : ReturnRangeState :=
  let ep_ret := s.ep_ret + rd.1
  let ep_len := s.ep_len + 1
  if rd.2 || (ep_len == max_episode_steps) then
    { returns := s.returns ++ [ep_ret], lengths := s.lengths ++ [ep_len],
      ep_ret := 0, ep_len := 0 }
  else
    { s with ep_ret := ep_ret, ep_len := ep_len }

/-- The loop of D4RLDataset.return_range: fold the step over
zip(rewards, terminals) starting from empty accumulators. -/
def return_range_fold (max_episode_steps : Nat) (rewards : List ℚ)
    (terminals : List Bool) : ReturnRangeState :=
  (rewards.zip terminals).foldl (return_range_step max_episode_steps)
    ⟨[], [], 0, 0⟩

/-- Embeds D4RLDataset.return_range of generative_rl/datasets/d4rl.py.  After
the loop, the code appends the length of the trailing incomplete episode to
lengths (but, per the commented-out line, not its return), asserts that the
lengths sum to the number of rewards, and returns (min(returns),
max(returns)).  A failed assertion and the ValueError raised by min on an
empty list are both embedded as none. -/
def return_range (rewards : List ℚ) (terminals : List Bool)
    (max_episode_steps : Nat) : Option (ℚ × ℚ) :=
  let st := return_range_fold max_episode_steps rewards terminals
  if (st.lengths ++ [st.ep_len]).sum = rewards.length then
    match st.returns with
    | [] => none
    | r :: rs => some (rs.foldl min r, rs.foldl max r)
  else none

/-- A neural drift model as used by the flow models: a function of the scalar
time t, the batched state x of shape (M, D) and an optional condition tensor,
returning a tensor of the shape of x.  This embeds base_model.model and
guided_model.model. -/
abbrev ModelFn : Type := ℚ → Mat → Option Mat → Mat

/-- An ODE solver integrate method: consumes a drift field, an initial batched
state and a time span, and returns the trajectory of states, one per time
step.  The solvers of the repository live outside the source tree, so the
integrator is kept abstract and universally quantified. -/
abbrev Integrator : Type := (ℚ → Mat → Mat) → Mat → List ℚ → List Mat

/-- The solver classes dispatched on in sample_forward_process.  The ODESolver
case records whether the solver library is torchdiffeq_adjoint, which passes
adjoint parameters to integrate. -/
inductive SolverKind where
  | dpmSolver : SolverKind
  | odeSolver (adjointLibrary : Bool) : SolverKind
  | dictTensorODESolver : SolverKind
  | sdeSolver : SolverKind
deriving DecidableEq

/-- Embeds torch.repeat_interleave(m, k, dim=0): every row of m is repeated k
times consecutively. -/
def repeat_interleave (k : Nat) (m : Mat) : Mat :=
  (m.map (fun r => List.replicate k r)).flatten

/-- Embeds the drift closure defined at lines 246 and 285 of
grl/generative_models/conditional_flow_model/guided_conditional_flow_model.py:
drift(t, x) = (1.0 - guidance_scale) * base_model.model(t, x, condition)
+ guidance_scale * guided_model.model(t, x, condition), where condition is the
already repeated condition tensor in scope. -/
def guidedDrift (base guided : ModelFn) (condition : Option Mat) (s : ℚ) :
    ℚ → Mat → Mat :=
  fun t x =>
    addMat (smulMat (1 - s) (base t x condition)) (smulMat s (guided t x condition))

/-- The part of GuidedConditionalFlowModel.sample_forward_process after the
batch sizes are determined (lines 198 and onward): draw or check and repeat
the initial state, repeat the condition, dispatch on the solver class, and run
the solver on the guided drift; the DPM and SDE branches raise
NotImplementedError, embedded as none, as are the assertion failures on the
shape of x_0 (including the index error on an empty x_0). -/
def sample_forward_process_core (solver : SolverKind) (integrate : Integrator)
    (gaussian : Nat → Mat) (base guided : ModelFn) (x_size : Nat)
    (t_span : List ℚ) (prodB data_batch_size : Nat)
    (x_0 condition : Option Mat) (with_grad : Bool) (guidance_scale : ℚ) :
    Option (List Mat) :=
  let xOpt : Option Mat :=
    match x_0 with
    | none => some (gaussian (prodB * data_batch_size))
    | some xv =>
      match xv with
      | [] => none
      | r0 :: _ =>
        if r0.length = x_size then some (repeat_interleave prodB xv) else none
  match xOpt with
  | none => none
  | some x =>
    let conditionRep : Option Mat := condition.map (repeat_interleave prodB)
    match solver with
    | SolverKind.dpmSolver => none
    | SolverKind.sdeSolver => none
    | SolverKind.odeSolver _ =>
      if with_grad then
        some (integrate (guidedDrift base guided conditionRep guidance_scale)
          x t_span)
      else
        some (integrate (guidedDrift base guided conditionRep guidance_scale)
          x t_span)
    | SolverKind.dictTensorODESolver =>
      if with_grad then
        some (integrate (guidedDrift base guided conditionRep guidance_scale)
          x t_span)
      else
        some (integrate (guidedDrift base guided conditionRep guidance_scale)
          x t_span)

/-- Embeds GuidedConditionalFlowModel.sample_forward_process of
grl/generative_models/conditional_flow_model/guided_conditional_flow_model.py.
The extra batch size is the tuple derived from batch_size (the tensor (1,)
when batch_size is None) and enters through its product prodB; when both x_0
and condition are given their leading batch dimensions must agree (an
AssertionError, embedded as none, otherwise); data_batch_size follows the
source case split.  The returned trajectory is the solver output at shape
(T, B * N, D); the final reshape and squeeze steps of the source rearrange
this same flat data into (T, B, N, D) views without changing any value. -/
def sample_forward_process (solver : SolverKind) (integrate : Integrator)
    (gaussian : Nat → Mat) (base guided : ModelFn) (x_size : Nat)
    (t_span : List ℚ) (batch_size : Option (List Nat))
    (x_0 condition : Option Mat) (with_grad : Bool) (guidance_scale : ℚ) :
    Option (List Mat) :=
  let prodB : Nat := (batch_size.getD [1]).prod
  match x_0, condition with
  | some xv, some c =>
    if xv.length = c.length then
      sample_forward_process_core solver integrate gaussian base guided x_size
        t_span prodB xv.length (some xv) (some c) with_grad guidance_scale
    else none
  | some xv, none =>
    sample_forward_process_core solver integrate gaussian base guided x_size
      t_span prodB xv.length (some xv) none with_grad guidance_scale
  | none, some c =>
    sample_forward_process_core solver integrate gaussian base guided x_size
      t_span prodB c.length none (some c) with_grad guidance_scale
  | none, none =>
    sample_forward_process_core solver integrate gaussian base guided x_size
      t_span prodB 1 none none with_grad guidance_scale

/-- Embeds GuidedConditionalFlowModel.sample: it calls sample_forward_process
with the same arguments and returns its element at index -1; indexing the
last element of an empty trajectory raises, embedded as none via getLast?. -/
def sample (solver : SolverKind) (integrate : Integrator)
    (gaussian : Nat → Mat) (base guided : ModelFn) (x_size : Nat)
    (t_span : List ℚ) (batch_size : Option (List Nat))
    (x_0 condition : Option Mat) (with_grad : Bool) (guidance_scale : ℚ) :
    Option Mat :=
  (sample_forward_process solver integrate gaussian base guided x_size t_span
    batch_size x_0 condition with_grad guidance_scale).bind List.getLast?

/-- Modelled from the spec: the sample_forward_process of the single
conditional flow models (IndependentConditionalFlowModel,
OptimalTransportConditionalFlowModel), whose defining files are not under
src.  Per the spec, the solver integrates the learned velocity field
model(t, x, condition) to transform noise into a sample, with the same time
discretization, conditioning-tensor handling and batch repetition as the
guided variant. -/
def single_model_sample_forward_process (solver : SolverKind)
    (integrate : Integrator) (gaussian : Nat → Mat) (model : ModelFn)
    (x_size : Nat) (t_span : List ℚ) (batch_size : Option (List Nat))
    (x_0 condition : Option Mat) (with_grad : Bool) : Option (List Mat) :=
  let prodB : Nat := (batch_size.getD [1]).prod
  let go : Nat → Option Mat → Option Mat → Option (List Mat) :=
    fun data_batch_size x_0 condition =>
      let xOpt : Option Mat :=
        match x_0 with
        | none => some (gaussian (prodB * data_batch_size))
        | some xv =>
          match xv with
          | [] => none
          | r0 :: _ =>
            if r0.length = x_size then some (repeat_interleave prodB xv)
            else none
      match xOpt with
      | none => none
      | some x =>
        let conditionRep : Option Mat := condition.map (repeat_interleave prodB)
        match solver with
        | SolverKind.dpmSolver => none
        | SolverKind.sdeSolver => none
        | SolverKind.odeSolver _ =>
          if with_grad then
            some (integrate (fun t x => model t x conditionRep) x t_span)
          else
            some (integrate (fun t x => model t x conditionRep) x t_span)
        | SolverKind.dictTensorODESolver =>
          if with_grad then
            some (integrate (fun t x => model t x conditionRep) x t_span)
          else
            some (integrate (fun t x => model t x conditionRep) x t_span)
  match x_0, condition with
  | some xv, some c =>
    if xv.length = c.length then go xv.length (some xv) (some c) else none
  | some xv, none => go xv.length (some xv) none
  | none, some c => go c.length none (some c)
  | none, none => go 1 none none

/-- Modelled from the spec: the sample method of the single conditional flow
models returns the final state of the trajectory of
single_model_sample_forward_process, as for the guided variant. -/
def single_model_sample (solver : SolverKind) (integrate : Integrator)
    (gaussian : Nat → Mat) (model : ModelFn) (x_size : Nat)
    (t_span : List ℚ) (batch_size : Option (List Nat))
    (x_0 condition : Option Mat) (with_grad : Bool) : Option Mat :=
  (single_model_sample_forward_process solver integrate gaussian model x_size
    t_span batch_size x_0 condition with_grad).bind List.getLast?

/-- Embeds GuidedPolicy.sample of grl/algorithms/gp_standard.py for the
conditional flow model types: it draws x_0 from the base model gaussian
generator with batch size state.shape[0], then dispatches on guidance_scale:
at 0.0 it calls base_model.sample, at 1.0 it calls guided_model.sample, and
otherwise it calls the blended self.model.sample with both models; in every
branch the state is the condition and with_grad is False. -/
def guided_policy_sample (solver : SolverKind) (integrate : Integrator)
    (gaussian : Nat → Mat) (base guided : ModelFn) (x_size : Nat)
    (t_span : List ℚ) (batch_size : Option (List Nat)) (state : Mat)
    (guidance_scale : ℚ) : Option Mat :=
  let x_0 : Mat := gaussian state.length
  if guidance_scale = 0 then
    single_model_sample solver integrate gaussian base x_size t_span
      batch_size (some x_0) (some state) false
  else if guidance_scale = 1 then
    single_model_sample solver integrate gaussian guided x_size t_span
      batch_size (some x_0) (some state) false
  else
    sample solver integrate gaussian base guided x_size t_span batch_size
      (some x_0) (some state) false guidance_scale

/-! Helper lemmas. -/

theorem zipWith3_getD (f : α → β → γ → δ) (l1 : List α) (l2 : List β)
    (l3 : List γ) (i : Nat) (d1 : α) (d2 : β) (d3 : γ) (d4 : δ)
    (h1 : i < l1.length) (h2 : i < l2.length) (h3 : i < l3.length) :
    (zipWith3 f l1 l2 l3).getD i d4
      = f (l1.getD i d1) (l2.getD i d2) (l3.getD i d3) := by
  induction l1 generalizing l2 l3 i with
  | nil => simp at h1
  | cons a as ih =>
    cases l2 with
    | nil => simp at h2
    | cons b bs =>
      cases l3 with
      | nil => simp at h3
      | cons c cs =>
        cases i with
        | zero => rfl
        | succ n =>
          simp only [zipWith3, List.getD_cons_succ]
          exact ih bs cs n (by simpa using h1) (by simpa using h2)
            (by simpa using h3)

theorem zipWith_getD (f : α → β → γ) (l1 : List α) (l2 : List β) (i : Nat)
    (d1 : α) (d2 : β) (d3 : γ) (h1 : i < l1.length) (h2 : i < l2.length) :
    (List.zipWith f l1 l2).getD i d3 = f (l1.getD i d1) (l2.getD i d2) := by
  induction l1 generalizing l2 i with
  | nil => simp at h1
  | cons a as ih =>
    cases l2 with
    | nil => simp at h2
    | cons b bs =>
      cases i with
      | zero => rfl
      | succ n =>
        simp only [List.zipWith_cons_cons, List.getD_cons_succ]
        exact ih bs n (by simpa using h1) (by simpa using h2)

theorem zipWith3_replicate_left (f : α → β → γ → δ) (c : α) (n : Nat)
    (x : List β) (y : List γ) (h : x.length ≤ n) :
    zipWith3 f (List.replicate n c) x y
      = List.zipWith (fun a b => f c a b) x y := by
  induction x generalizing n y with
  | nil =>
    cases n <;> cases y <;> rfl
  | cons a as ih =>
    cases n with
    | zero => simp at h
    | succ m =>
      cases y with
      | nil => rfl
      | cons b bs =>
        simp only [List.replicate, zipWith3, List.zipWith_cons_cons]
        rw [ih m bs (by simpa using h)]

theorem zipWith_interp_zero (r0 r1 : Row) (h : r0.length ≤ r1.length) :
    List.zipWith (fun a b => a * (1 - (0 : ℚ)) + b * 0) r0 r1 = r0 := by
  induction r0 generalizing r1 with
  | nil => rfl
  | cons a as ih =>
    cases r1 with
    | nil => simp at h
    | cons b bs =>
      simp only [List.zipWith_cons_cons]
      refine congrArg₂ _ (by ring) (ih bs (by simpa using h))

theorem zipWith_interp_one (r0 r1 : Row) (h : r1.length ≤ r0.length) :
    List.zipWith (fun a b => a * (1 - (1 : ℚ)) + b * 1) r0 r1 = r1 := by
  induction r0 generalizing r1 with
  | nil =>
    cases r1 with
    | nil => rfl
    | cons b bs => simp at h
  | cons a as ih =>
    cases r1 with
    | nil => rfl
    | cons b bs =>
      simp only [List.zipWith_cons_cons]
      refine congrArg₂ _ (by ring) (ih bs (by simpa using h))

theorem mean_replicate_zero (B D : Nat) (x0 x1 : Mat)
    (hB0 : x0.length = B) (hB1 : x1.length = B)
    (hrow0 : ∀ r ∈ x0, r.length = D) (hrow1 : ∀ r ∈ x1, r.length = D) :
    StochasticProcess.mean (List.replicate B 0) x0 x1 = x0 := by
  induction B generalizing x0 x1 with
  | zero =>
    cases x0 with
    | nil => cases x1 <;> rfl
    | cons r rs => simp at hB0
  | succ n ih =>
    cases x0 with
    | nil => simp at hB0
    | cons r0 rs0 =>
      cases x1 with
      | nil => simp at hB1
      | cons r1 rs1 =>
        simp only [List.replicate, StochasticProcess.mean, zipWith3]
        refine congrArg₂ _ ?_ ?_
        · exact zipWith_interp_zero r0 r1
            (by rw [hrow0 r0 (by simp), hrow1 r1 (by simp)])
        · exact ih rs0 rs1 (by simpa using hB0) (by simpa using hB1)
            (fun r hr => hrow0 r (by simp [hr]))
            (fun r hr => hrow1 r (by simp [hr]))

theorem mean_replicate_one (B D : Nat) (x0 x1 : Mat)
    (hB0 : x0.length = B) (hB1 : x1.length = B)
    (hrow0 : ∀ r ∈ x0, r.length = D) (hrow1 : ∀ r ∈ x1, r.length = D) :
    StochasticProcess.mean (List.replicate B 1) x0 x1 = x1 := by
  induction B generalizing x0 x1 with
  | zero =>
    cases x0 with
    | nil => cases x1 with
      | nil => rfl
      | cons r rs => simp at hB1
    | cons r rs => simp at hB0
  | succ n ih =>
    cases x0 with
    | nil => simp at hB0
    | cons r0 rs0 =>
      cases x1 with
      | nil => simp at hB1
      | cons r1 rs1 =>
        simp only [List.replicate, StochasticProcess.mean, zipWith3]
        refine congrArg₂ _ ?_ ?_
        · exact zipWith_interp_one r0 r1
            (by rw [hrow0 r0 (by simp), hrow1 r1 (by simp)])
        · exact ih rs0 rs1 (by simpa using hB0) (by simpa using hB1)
            (fun r hr => hrow0 r (by simp [hr]))
            (fun r hr => hrow1 r (by simp [hr]))

theorem getD_mem_of_lt (l : List α) (i : Nat) (d : α) (h : i < l.length) :
    l.getD i d ∈ l := by
  rw [List.getD_eq_getElem l d h]
  exact List.getElem_mem h

/-! Claim theorems. -/

/-- Claim C2: for every time tensor t of shape (B,) and state tensors x0, x1
of shape (B, D), StochasticProcess.mean computes the interpolation
x0 * (1 - t) + x1 * t entrywise; it equals the noise sample x0 when t is all
zeros and the target sample x1 when t is all ones, and the reshape branch
taken when x0 has more dimensions than t agrees row by row with the plain
elementwise branch applied to the broadcast-expanded time tensor. -/
theorem C2_mean_interpolation (B D : Nat) (t : Row) (x0 x1 : Mat)
    (hB0 : x0.length = B) (hB1 : x1.length = B) (htB : t.length = B)
    (hrow0 : ∀ r ∈ x0, r.length = D) (hrow1 : ∀ r ∈ x1, r.length = D) :
    (∀ b d, b < B → d < D →
      entry2 (StochasticProcess.mean t x0 x1) b d
        = entry2 x0 b d * (1 - t.getD b 0) + entry2 x1 b d * t.getD b 0)
    ∧ (t = List.replicate B 0 → StochasticProcess.mean t x0 x1 = x0)
    ∧ (t = List.replicate B 1 → StochasticProcess.mean t x0 x1 = x1)
    ∧ (∀ b, b < B →
      (StochasticProcess.mean t x0 x1).getD b []
        = StochasticProcess.meanPlain (List.replicate D (t.getD b 0))
            (x0.getD b []) (x1.getD b [])) := by
  refine ⟨?_, ?_, ?_, ?_⟩
  · intro b d hb hd
    unfold entry2 StochasticProcess.mean
    rw [zipWith3_getD _ t x0 x1 b 0 [] [] []
      (by omega) (by omega) (by omega)]
    rw [zipWith_getD _ (x0.getD b []) (x1.getD b []) d 0 0 0
      (by rw [hrow0 _ (getD_mem_of_lt x0 b [] (by omega))]; omega)
      (by rw [hrow1 _ (getD_mem_of_lt x1 b [] (by omega))]; omega)]
  · intro ht
    rw [ht]
    exact mean_replicate_zero B D x0 x1 hB0 hB1 hrow0 hrow1
  · intro ht
    rw [ht]
    exact mean_replicate_one B D x0 x1 hB0 hB1 hrow0 hrow1
  · intro b hb
    unfold StochasticProcess.mean StochasticProcess.meanPlain
    rw [zipWith3_getD _ t x0 x1 b 0 [] [] []
      (by omega) (by omega) (by omega)]
    rw [zipWith3_replicate_left _ _ D (x0.getD b []) (x1.getD b [])
      (by rw [hrow0 _ (getD_mem_of_lt x0 b [] (by omega))])]

/-- Claim C2 witness: a concrete instance with B = 2, D = 2. -/
theorem C2_mean_interpolation_witness :
    entry2 (StochasticProcess.mean [1/2, 1/4] [[1, 2], [3, 4]]
      [[5, 6], [7, 8]]) 0 1 = 2 * (1 - 1/2) + 6 * (1/2)
    ∧ StochasticProcess.mean [0, 0] [[1, 2], [3, 4]] [[5, 6], [7, 8]]
        = [[1, 2], [3, 4]] := by
  have h := C2_mean_interpolation 2 2 [1/2, 1/4] [[1, 2], [3, 4]]
    [[5, 6], [7, 8]] (by decide) (by decide) (by decide)
    (by intro r hr; simp only [List.mem_cons, List.not_mem_nil, or_false] at hr
        rcases hr with rfl | rfl <;> rfl)
    (by intro r hr; simp only [List.mem_cons, List.not_mem_nil, or_false] at hr
        rcases hr with rfl | rfl <;> rfl)
  have h2 := C2_mean_interpolation 2 2 [0, 0] [[1, 2], [3, 4]]
    [[5, 6], [7, 8]] (by decide) (by decide) (by decide)
    (by intro r hr; simp only [List.mem_cons, List.not_mem_nil, or_false] at hr
        rcases hr with rfl | rfl <;> rfl)
    (by intro r hr; simp only [List.mem_cons, List.not_mem_nil, or_false] at hr
        rcases hr with rfl | rfl <;> rfl)
  refine ⟨?_, h2.2.1 (by decide)⟩
  have := h.1 0 1 (by decide) (by decide)
  simpa using this

theorem meanScalarT_eq_add_velocity (t : ℚ) :
    ∀ (x0 x1 : Row),
      StochasticProcess.meanScalarT t x0 x1
        = addRow x0 (smulRow t (StochasticProcess.velocity t x0 x1))
  | [], [] => rfl
  | [], _ :: _ => rfl
  | _ :: _, [] => rfl
  | a :: as, b :: bs => by
    simp only [StochasticProcess.meanScalarT, StochasticProcess.velocity,
      addRow, smulRow, List.zipWith_cons_cons, List.map_cons]
    exact congrArg₂ _ (by ring) (meanScalarT_eq_add_velocity t as bs)

theorem add_velocity_one_eq :
    ∀ (x0 x1 : Row), x0.length = x1.length →
      addRow x0 (smulRow 1 (StochasticProcess.velocity 1 x0 x1)) = x1
  | [], [], _ => rfl
  | [], b :: bs, h => by simp at h
  | a :: as, [], h => by simp at h
  | a :: as, b :: bs, h => by
    simp only [StochasticProcess.velocity, addRow, smulRow,
      List.zipWith_cons_cons, List.map_cons]
    exact congrArg₂ _ (by ring)
      (add_velocity_one_eq as bs (by simpa using h))

/-- Claim C7: StochasticProcess.velocity returns x1 - x0 entrywise, and the
path mean satisfies mean(t, x0, x1) = x0 + t * velocity(t, x0, x1) for every
scalar time t, so moving along the velocity field from time 0 to time 1 turns
the noise sample x0 into the target sample x1. -/
theorem C7_velocity_mean_identity (t : ℚ) (x0 x1 : Row)
    (hlen : x0.length = x1.length) :
    (∀ i, i < x0.length →
      (StochasticProcess.velocity t x0 x1).getD i 0
        = x1.getD i 0 - x0.getD i 0)
    ∧ StochasticProcess.meanScalarT t x0 x1
        = addRow x0 (smulRow t (StochasticProcess.velocity t x0 x1))
    ∧ addRow x0 (smulRow 1 (StochasticProcess.velocity 1 x0 x1)) = x1 := by
  refine ⟨?_, meanScalarT_eq_add_velocity t x0 x1,
    add_velocity_one_eq x0 x1 hlen⟩
  intro i hi
  unfold StochasticProcess.velocity
  rw [zipWith_getD _ x1 x0 i 0 0 0 (by omega) hi]

/-- Claim C7 witness: a concrete instance with three entries. -/
theorem C7_velocity_mean_identity_witness :
    (StochasticProcess.velocity (1/3) [1, 2, 3] [4, 6, 8]).getD 1 0 = 6 - 2
    ∧ StochasticProcess.meanScalarT (1/3) [1, 2, 3] [4, 6, 8]
        = addRow [1, 2, 3]
            (smulRow (1/3) (StochasticProcess.velocity (1/3) [1, 2, 3] [4, 6, 8]))
    ∧ addRow [1, 2, 3] (smulRow 1 (StochasticProcess.velocity 1 [1, 2, 3] [4, 6, 8]))
        = [4, 6, 8] := by
  have h := C7_velocity_mean_identity (1/3) [1, 2, 3] [4, 6, 8] (by decide)
  exact ⟨h.1 1 (by decide), h.2.1, h.2.2⟩

/-- Claim C9: asymmetric_l2_loss is invariant under negating the tensor while
reflecting tau to 1 - tau, it is nonnegative, and at tau = 1/2 it equals half
the mean squared value of the tensor. -/
theorem C9_asymmetric_l2_loss (u : List ℚ) (tau : ℚ) :
    asymmetric_l2_loss u tau
      = asymmetric_l2_loss (u.map (fun x => -x)) (1 - tau)
    ∧ 0 ≤ asymmetric_l2_loss u tau
    ∧ asymmetric_l2_loss u (1/2)
        = (1/2) * ((u.map (fun x => x ^ 2)).sum / (u.length : ℚ)) := by
  refine ⟨?_, ?_, ?_⟩
  · unfold asymmetric_l2_loss
    rw [List.map_map, List.length_map]
    congr 2
    refine List.map_congr_left ?_
    intro x _
    simp only [Function.comp_apply]
    rcases lt_trichotomy x 0 with hx | hx | hx
    · rw [if_pos hx, if_neg (by linarith), neg_pow]
      rw [show (1 - tau - 0 : ℚ) = -(tau - 1) by ring, abs_neg]
      ring
    · subst hx
      norm_num
    · rw [if_neg (by linarith), if_pos (by linarith)]
      rw [show (1 - tau - 1 : ℚ) = -(tau - 0) by ring, abs_neg, neg_pow]
      ring
  · unfold asymmetric_l2_loss
    refine div_nonneg (List.sum_nonneg ?_) (by positivity)
    intro y hy
    obtain ⟨x, _, rfl⟩ := List.mem_map.mp hy
    exact mul_nonneg (abs_nonneg _) (sq_nonneg x)
  · unfold asymmetric_l2_loss
    rw [show (u.map (fun x => |1/2 - (if x < 0 then (1 : ℚ) else 0)| * x ^ 2))
        = u.map (fun x => (1/2 : ℚ) * x ^ 2) from List.map_congr_left ?_]
    · rw [List.sum_map_mul_left, mul_div_assoc]
    · intro x _
      rcases lt_or_le x 0 with hx | hx
      · rw [if_pos hx]
        norm_num
      · rw [if_neg (not_lt.mpr hx)]
        norm_num

/-- Claim C10: the TD regression target in IDQLCritic.q_loss and
GPCritic.iql_q_loss is reward + (1 - done) * discount * next_v entrywise, so
for a terminal transition the target is the reward alone, independent of the
discount and of next_v, and for a non-terminal transition it is
reward + discount * next_v. -/
theorem C10_td_target (reward : Row) (done : List Bool) (next_v : Row)
    (discount : ℚ) (i : Nat) (hi1 : i < reward.length)
    (hi2 : i < done.length) (hi3 : i < next_v.length) :
    (done.getD i false = true →
      (q_loss_targets reward done next_v discount).getD i 0 = reward.getD i 0
      ∧ (iql_q_loss_target reward done next_v discount).getD i 0
          = reward.getD i 0)
    ∧ (done.getD i false = false →
      (q_loss_targets reward done next_v discount).getD i 0
          = reward.getD i 0 + discount * next_v.getD i 0
      ∧ (iql_q_loss_target reward done next_v discount).getD i 0
          = reward.getD i 0 + discount * next_v.getD i 0) := by
  unfold q_loss_targets iql_q_loss_target
  rw [zipWith3_getD _ reward done next_v i 0 false 0 0 hi1 hi2 hi3]
  constructor
  · intro hd
    rw [hd]
    norm_num
  · intro hd
    rw [hd]
    norm_num

/-- Claim C10 witness: a concrete terminal transition, where the target is the
reward regardless of discount and next state value. -/
theorem C10_td_target_witness :
    (q_loss_targets [2] [true] [5] (9/10)).getD 0 0 = 2
    ∧ (iql_q_loss_target [2] [true] [5] (9/10)).getD 0 0 = 2 :=
  (C10_td_target [2] [true] [5] (9/10) 0 (by decide) (by decide)
    (by decide)).1 rfl

theorem return_range_fold_invariant (mes : Nat) :
    ∀ (l : List (ℚ × Bool)) (s : ReturnRangeState),
      ((l.foldl (return_range_step mes) s).lengths).sum
          + (l.foldl (return_range_step mes) s).ep_len
        = s.lengths.sum + s.ep_len + l.length
  | [], s => by simp
  | rd :: l, s => by
    rw [List.foldl_cons,
      return_range_fold_invariant mes l (return_range_step mes s rd)]
    simp only [return_range_step, List.length_cons]
    split
    · simp [List.sum_append]
      omega
    · simp
      omega

theorem foldl_min_le (l : List ℚ) : ∀ a, l.foldl min a ≤ a := by
  induction l with
  | nil => intro a; exact le_refl a
  | cons b l ih =>
    intro a
    exact le_trans (ih (min a b)) (min_le_left a b)

theorem foldl_min_le_of_mem (l : List ℚ) :
    ∀ a x, x ∈ l → l.foldl min a ≤ x := by
  induction l with
  | nil => intro a x hx; simp at hx
  | cons b l ih =>
    intro a x hx
    rcases List.mem_cons.mp hx with rfl | hx
    · exact le_trans (foldl_min_le l (min a x)) (min_le_right a x)
    · exact ih (min a b) x hx

theorem foldl_min_mem (l : List ℚ) :
    ∀ a, l.foldl min a = a ∨ l.foldl min a ∈ l := by
  induction l with
  | nil => intro a; exact Or.inl rfl
  | cons b l ih =>
    intro a
    rcases ih (min a b) with h | h
    · rcases min_choice a b with hm | hm
      · exact Or.inl (by rw [List.foldl_cons, h, hm])
      · exact Or.inr (by rw [List.foldl_cons, h, hm]; exact List.mem_cons_self b l)
    · exact Or.inr (List.mem_cons_of_mem b h)

theorem le_foldl_max (l : List ℚ) : ∀ a, a ≤ l.foldl max a := by
  induction l with
  | nil => intro a; exact le_refl a
  | cons b l ih =>
    intro a
    exact le_trans (le_max_left a b) (ih (max a b))

theorem le_foldl_max_of_mem (l : List ℚ) :
    ∀ a x, x ∈ l → x ≤ l.foldl max a := by
  induction l with
  | nil => intro a x hx; simp at hx
  | cons b l ih =>
    intro a x hx
    rcases List.mem_cons.mp hx with rfl | hx
    · exact le_trans (le_max_right a x) (le_foldl_max l (max a x))
    · exact ih (max a b) x hx

theorem foldl_max_mem (l : List ℚ) :
    ∀ a, l.foldl max a = a ∨ l.foldl max a ∈ l := by
  induction l with
  | nil => intro a; exact Or.inl rfl
  | cons b l ih =>
    intro a
    rcases ih (max a b) with h | h
    · rcases max_choice a b with hm | hm
      · exact Or.inl (by rw [List.foldl_cons, h, hm])
      · exact Or.inr (by rw [List.foldl_cons, h, hm]; exact List.mem_cons_self b l)
    · exact Or.inr (List.mem_cons_of_mem b h)

/-- Claim C8: for rewards and terminals of equal length, the assertion inside
D4RLDataset.return_range holds (the tracked episode lengths, with the
trailing incomplete episode included, sum to the number of rewards); when no
episode completes the function fails; and otherwise it returns the minimum
and the maximum return over exactly the completed episodes collected by the
loop, the trailing incomplete return being excluded from that list by
construction. -/
theorem C8_return_range (rewards : List ℚ) (terminals : List Bool)
    (max_episode_steps : Nat) (hlen : rewards.length = terminals.length)
    (hpos : 0 < max_episode_steps) :
    ((return_range_fold max_episode_steps rewards terminals).lengths
        ++ [(return_range_fold max_episode_steps rewards terminals).ep_len]).sum
      = rewards.length
    ∧ ((return_range_fold max_episode_steps rewards terminals).returns = []
        → return_range rewards terminals max_episode_steps = none)
    ∧ (∀ r rs,
        (return_range_fold max_episode_steps rewards terminals).returns
            = r :: rs →
          return_range rewards terminals max_episode_steps
              = some (rs.foldl min r, rs.foldl max r)
          ∧ rs.foldl min r ∈ r :: rs
          ∧ rs.foldl max r ∈ r :: rs
          ∧ (∀ x ∈ r :: rs, rs.foldl min r ≤ x ∧ x ≤ rs.foldl max r)) := by
  have hsum : ((return_range_fold max_episode_steps rewards terminals).lengths
      ++ [(return_range_fold max_episode_steps rewards terminals).ep_len]).sum
      = rewards.length := by
    rw [List.sum_append]
    simp only [List.sum_cons, List.sum_nil, add_zero]
    unfold return_range_fold
    rw [return_range_fold_invariant max_episode_steps
      (rewards.zip terminals) ⟨[], [], 0, 0⟩]
    simp [List.length_zip, hlen]
  refine ⟨hsum, ?_, ?_⟩
  · intro hret
    unfold return_range
    rw [if_pos hsum, hret]
  · intro r rs hret
    refine ⟨?_, ?_, ?_, ?_⟩
    · unfold return_range
      rw [if_pos hsum, hret]
    · rcases foldl_min_mem rs r with h | h
      · rw [h]; exact List.mem_cons_self r rs
      · exact List.mem_cons_of_mem r h
    · rcases foldl_max_mem rs r with h | h
      · rw [h]; exact List.mem_cons_self r rs
      · exact List.mem_cons_of_mem r h
    · intro x hx
      rcases List.mem_cons.mp hx with rfl | hx
      · exact ⟨foldl_min_le rs x, le_foldl_max rs x⟩
      · exact ⟨foldl_min_le_of_mem rs r x hx, le_foldl_max_of_mem rs r x hx⟩

/-- Claim C8 witness: three steps, one episode completed by a terminal flag at
step two, a trailing incomplete episode of one step; the assertion holds and
the returned range is the single completed return 3. -/
theorem C8_return_range_witness :
    ((return_range_fold 2 [1, 2, 3] [false, true, false]).lengths
        ++ [(return_range_fold 2 [1, 2, 3] [false, true, false]).ep_len]).sum
      = 3
    ∧ return_range [1, 2, 3] [false, true, false] 2 = some (3, 3) := by
  have h := C8_return_range [1, 2, 3] [false, true, false] 2
    (by decide) (by decide)
  exact ⟨h.1, ((h.2.2) 3 [] (by norm_num [return_range_fold, return_range_step, List.zip])).1⟩

theorem repeat_interleave_length (k : Nat) :
    ∀ (m : Mat), (repeat_interleave k m).length = k * m.length
  | [] => by simp [repeat_interleave]
  | r :: m => by
    have ih := repeat_interleave_length k m
    unfold repeat_interleave at ih ⊢
    simp only [List.map_cons, List.flatten_cons, List.length_append,
      List.length_replicate, List.length_cons, ih]
    ring

theorem sample_forward_process_core_with_grad (solver : SolverKind)
    (integrate : Integrator) (gaussian : Nat → Mat) (base guided : ModelFn)
    (x_size : Nat) (t_span : List ℚ) (prodB dbs : Nat)
    (x_0 condition : Option Mat) (s : ℚ) :
    sample_forward_process_core solver integrate gaussian base guided x_size
        t_span prodB dbs x_0 condition true s
      = sample_forward_process_core solver integrate gaussian base guided
          x_size t_span prodB dbs x_0 condition false s := by
  unfold sample_forward_process_core
  cases x_0 with
  | none => cases solver <;> rfl
  | some xv =>
    cases xv with
    | nil => rfl
    | cons r0 rest =>
      dsimp only
      split
      · cases solver <;> rfl
      · rfl

/-- Claim C4: the with_grad flag of
GuidedConditionalFlowModel.sample_forward_process selects between two
identical solver.integrate calls (once wrapped in torch.no_grad) and never
changes the computed trajectory values: for every fixed input the results
with with_grad True and False are equal. -/
theorem C4_with_grad_value_equality (solver : SolverKind)
    (integrate : Integrator) (gaussian : Nat → Mat) (base guided : ModelFn)
    (x_size : Nat) (t_span : List ℚ) (batch_size : Option (List Nat))
    (x_0 condition : Option Mat) (guidance_scale : ℚ) :
    sample_forward_process solver integrate gaussian base guided x_size
        t_span batch_size x_0 condition true guidance_scale
      = sample_forward_process solver integrate gaussian base guided x_size
          t_span batch_size x_0 condition false guidance_scale := by
  unfold sample_forward_process
  cases x_0 with
  | none =>
    cases condition with
    | none => exact sample_forward_process_core_with_grad ..
    | some c => exact sample_forward_process_core_with_grad ..
  | some xv =>
    cases condition with
    | none => exact sample_forward_process_core_with_grad ..
    | some c =>
      dsimp only
      split
      · exact sample_forward_process_core_with_grad ..
      · rfl

/-- Claim C1: in sample_forward_process, for every time t, state x, condition
and guidance scale s, the drift field handed to the ODE solver (for both the
ODESolver and the DictTensorODESolver branches, for either with_grad value)
is the affine blend (1 - s) * base_model.model(t, x, condition)
+ s * guided_model.model(t, x, condition) of the base and the guided drift
fields, where condition is the repeated condition tensor. -/
theorem C1_drift_affine_blend (integrate : Integrator) (gaussian : Nat → Mat)
    (base guided : ModelFn) (x_size : Nat) (t_span : List ℚ)
    (batch_size : Option (List Nat)) (r0 : Row) (rest : Mat) (c : Mat)
    (with_grad adjoint : Bool) (s : ℚ)
    (hbatch : (r0 :: rest).length = c.length) (hshape : r0.length = x_size) :
    (sample_forward_process (SolverKind.odeSolver adjoint) integrate gaussian
        base guided x_size t_span batch_size (some (r0 :: rest)) (some c)
        with_grad s
      = some (integrate
          (fun t x => addMat
            (smulMat (1 - s) (base t x
              (some (repeat_interleave (batch_size.getD [1]).prod c))))
            (smulMat s (guided t x
              (some (repeat_interleave (batch_size.getD [1]).prod c)))))
          (repeat_interleave (batch_size.getD [1]).prod (r0 :: rest)) t_span))
    ∧ (sample_forward_process SolverKind.dictTensorODESolver integrate
        gaussian base guided x_size t_span batch_size (some (r0 :: rest))
        (some c) with_grad s
      = some (integrate
          (fun t x => addMat
            (smulMat (1 - s) (base t x
              (some (repeat_interleave (batch_size.getD [1]).prod c))))
            (smulMat s (guided t x
              (some (repeat_interleave (batch_size.getD [1]).prod c)))))
          (repeat_interleave (batch_size.getD [1]).prod (r0 :: rest))
          t_span)) := by
  constructor <;>
    · unfold sample_forward_process sample_forward_process_core guidedDrift
      dsimp only
      rw [if_pos hbatch, if_pos hshape]
      cases with_grad <;> rfl

/-- Claim C1 witness: a concrete instance with one data row, a condition of
matching batch size, and guidance scale 1/2; the trajectory is the integrator
applied to the blended drift. -/
theorem C1_drift_affine_blend_witness :
    sample_forward_process (SolverKind.odeSolver false)
        (fun drift x _ => [drift 0 x]) (fun _ => [])
        (fun _ _ _ => [[2]]) (fun _ _ _ => [[4]]) 1 [] none
        (some [[0]]) (some [[7]]) false (1/2)
      = some [[[3]]] := by
  have h := (C1_drift_affine_blend (fun drift x _ => [drift 0 x]) (fun _ => [])
    (fun _ _ _ => [[2]]) (fun _ _ _ => [[4]]) 1 [] none [0] [] [[7]]
    false false (1/2) (by decide) (by decide)).1
  rw [h]
  norm_num [addMat, smulMat, addRow, smulRow]

/-- Claim C3: GuidedConditionalFlowModel.sample with the same arguments
returns exactly the last time-step state of the trajectory returned by
sample_forward_process. -/
theorem C3_sample_is_last (solver : SolverKind) (integrate : Integrator)
    (gaussian : Nat → Mat) (base guided : ModelFn) (x_size : Nat)
    (t_span : List ℚ) (batch_size : Option (List Nat))
    (x_0 condition : Option Mat) (with_grad : Bool) (guidance_scale : ℚ)
    (traj : List Mat)
    (h : sample_forward_process solver integrate gaussian base guided x_size
        t_span batch_size x_0 condition with_grad guidance_scale = some traj)
    (hne : traj ≠ []) :
    sample solver integrate gaussian base guided x_size t_span batch_size
        x_0 condition with_grad guidance_scale
      = some (traj.getLast hne) := by
  unfold sample
  rw [h]
  simp [List.getLast?_eq_getLast traj hne]

/-- Claim C3 witness: with a one-step integrator the trajectory is a
singleton and sample returns that state. -/
theorem C3_sample_is_last_witness :
    sample (SolverKind.odeSolver false) (fun _ x _ => [x]) (fun _ => [])
        (fun _ x _ => x) (fun _ x _ => x) 1 [] none (some [[0]]) none false 1
      = some [[0]] :=
  C3_sample_is_last (SolverKind.odeSolver false) (fun _ x _ => [x])
    (fun _ => []) (fun _ x _ => x) (fun _ x _ => x) 1 [] none (some [[0]])
    none false 1 [[[0]]] rfl (by decide)

/-- Claim C6: sample_forward_process fails when x_0 and condition have
different leading batch dimensions, and when the per-item shape of x_0
differs from the configured x_size; otherwise it proceeds, repeating both
x_0 and the condition by the product of the extra batch size along dimension
0, so the solver sees matching leading dimensions of size B * N. -/
theorem C6_batch_handling (integrate : Integrator) (gaussian : Nat → Mat)
    (base guided : ModelFn) (x_size : Nat) (t_span : List ℚ)
    (batch_size : Option (List Nat)) (with_grad : Bool) (s : ℚ) :
    (∀ (solver : SolverKind) (xv c : Mat), xv.length ≠ c.length →
      sample_forward_process solver integrate gaussian base guided x_size
          t_span batch_size (some xv) (some c) with_grad s = none)
    ∧ (∀ (solver : SolverKind) (r0 : Row) (rest : Mat)
        (condition : Option Mat), r0.length ≠ x_size →
      sample_forward_process solver integrate gaussian base guided x_size
          t_span batch_size (some (r0 :: rest)) condition with_grad s = none)
    ∧ (∀ (adjoint : Bool) (r0 : Row) (rest c : Mat),
        (r0 :: rest).length = c.length → r0.length = x_size →
      sample_forward_process (SolverKind.odeSolver adjoint) integrate
          gaussian base guided x_size t_span batch_size (some (r0 :: rest))
          (some c) with_grad s
        = some (integrate
            (guidedDrift base guided
              (some (repeat_interleave (batch_size.getD [1]).prod c)) s)
            (repeat_interleave (batch_size.getD [1]).prod (r0 :: rest))
            t_span)
      ∧ (repeat_interleave (batch_size.getD [1]).prod (r0 :: rest)).length
          = (batch_size.getD [1]).prod * (r0 :: rest).length
      ∧ (repeat_interleave (batch_size.getD [1]).prod c).length
          = (batch_size.getD [1]).prod * c.length) := by
  refine ⟨?_, ?_, ?_⟩
  · intro solver xv c hne
    unfold sample_forward_process
    dsimp only
    rw [if_neg hne]
  · intro solver r0 rest condition hne
    cases condition with
    | none =>
      unfold sample_forward_process sample_forward_process_core
      dsimp only
      rw [if_neg hne]
    | some c =>
      unfold sample_forward_process sample_forward_process_core
      dsimp only
      repeat' split
      all_goals first | rfl | (exact absurd (by assumption) hne) | (exfalso; simp_all)
  · intro adjoint r0 rest c hbatch hshape
    refine ⟨?_, repeat_interleave_length _ _, repeat_interleave_length _ _⟩
    unfold sample_forward_process sample_forward_process_core
    dsimp only
    rw [if_pos hbatch, if_pos hshape]
    cases with_grad <;> rfl

/-- Claim C6 witness: a mismatched batch fails, a wrong per-item shape fails,
and a matching input is repeated twice by the extra batch size 2. -/
theorem C6_batch_handling_witness :
    sample_forward_process (SolverKind.odeSolver false) (fun _ x _ => [x])
        (fun _ => []) (fun _ x _ => x) (fun _ x _ => x) 1 [] (some [2])
        (some [[0]]) (some [[1], [2]]) false 1 = none
    ∧ sample_forward_process (SolverKind.odeSolver false) (fun _ x _ => [x])
        (fun _ => []) (fun _ x _ => x) (fun _ x _ => x) 3 [] (some [2])
        (some [[0]]) none false 1 = none
    ∧ sample_forward_process (SolverKind.odeSolver false) (fun _ x _ => [x])
        (fun _ => []) (fun _ x _ => x) (fun _ x _ => x) 1 [] (some [2])
        (some [[0]]) (some [[1]]) false 1
      = some [[[0], [0]]]
    ∧ (repeat_interleave 2 [[0], [0]]).length = 2 * 2 := by
  have h := C6_batch_handling (fun _ x _ => [x]) (fun _ => [])
    (fun _ x _ => x) (fun _ x _ => x) 1 [] (some [2]) false 1
  have h2 := C6_batch_handling (fun _ x _ => [x]) (fun _ => [])
    (fun _ x _ => x) (fun _ x _ => x) 3 [] (some [2]) false 1
  refine ⟨h.1 (SolverKind.odeSolver false) [[0]] [[1], [2]] (by decide),
    h2.2.1 (SolverKind.odeSolver false) [0] [] none (by decide), ?_, ?_⟩
  · have h3 := (h.2.2 false [0] [] [[1]] (by decide) (by decide)).1
    rw [h3]
    rfl
  · exact repeat_interleave_length 2 [[0], [0]]

theorem smulRow_one (r : Row) : smulRow 1 r = r := by
  unfold smulRow
  simp

theorem smulMat_one (m : Mat) : smulMat 1 m = m := by
  unfold smulMat
  rw [show smulRow 1 = id from funext smulRow_one, List.map_id]

theorem matShape_smulMat (c : ℚ) (m : Mat) :
    matShape (smulMat c m) = matShape m := by
  simp [matShape, smulMat, smulRow]

theorem addRow_smul_zero_left : ∀ (r1 r2 : Row), r1.length = r2.length →
    addRow (smulRow 0 r1) r2 = r2
  | [], [], _ => rfl
  | [], b :: bs, h => by simp at h
  | a :: as, [], h => by simp at h
  | a :: as, b :: bs, h => by
    simp only [smulRow, addRow, List.map_cons, List.zipWith_cons_cons]
    refine congrArg₂ _ (by ring) ?_
    exact addRow_smul_zero_left as bs (by simpa using h)

theorem addRow_smul_zero_right : ∀ (r1 r2 : Row), r1.length = r2.length →
    addRow r1 (smulRow 0 r2) = r1
  | [], [], _ => rfl
  | [], b :: bs, h => by simp at h
  | a :: as, [], h => by simp at h
  | a :: as, b :: bs, h => by
    simp only [smulRow, addRow, List.map_cons, List.zipWith_cons_cons]
    refine congrArg₂ _ (by ring) ?_
    exact addRow_smul_zero_right as bs (by simpa using h)

theorem addMat_smul_zero_left : ∀ (m1 m2 : Mat), matShape m1 = matShape m2 →
    addMat (smulMat 0 m1) m2 = m2
  | [], [], _ => rfl
  | [], r :: m, h => by simp [matShape] at h
  | r :: m, [], h => by simp [matShape] at h
  | r1 :: m1, r2 :: m2, h => by
    simp only [matShape, List.map_cons, List.cons.injEq] at h
    simp only [smulMat, addMat, List.map_cons, List.zipWith_cons_cons]
    refine congrArg₂ _ (addRow_smul_zero_left r1 r2 h.1) ?_
    exact addMat_smul_zero_left m1 m2 h.2

theorem addMat_smul_zero_right : ∀ (m1 m2 : Mat), matShape m1 = matShape m2 →
    addMat m1 (smulMat 0 m2) = m1
  | [], [], _ => rfl
  | [], r :: m, h => by simp [matShape] at h
  | r :: m, [], h => by simp [matShape] at h
  | r1 :: m1, r2 :: m2, h => by
    simp only [matShape, List.map_cons, List.cons.injEq] at h
    simp only [smulMat, addMat, List.map_cons, List.zipWith_cons_cons]
    refine congrArg₂ _ (addRow_smul_zero_right r1 r2 h.1) ?_
    exact addMat_smul_zero_right m1 m2 h.2

theorem guidedDrift_one (base guided : ModelFn) (c : Option Mat)
    (h : ∀ t x, matShape (base t x c) = matShape (guided t x c)) :
    guidedDrift base guided c 1 = fun t x => guided t x c := by
  funext t x
  unfold guidedDrift
  rw [show (1 : ℚ) - 1 = 0 by norm_num, smulMat_one]
  exact addMat_smul_zero_left (base t x c) (guided t x c) (h t x)

theorem guidedDrift_zero (base guided : ModelFn) (c : Option Mat)
    (h : ∀ t x, matShape (base t x c) = matShape (guided t x c)) :
    guidedDrift base guided c 0 = fun t x => base t x c := by
  funext t x
  unfold guidedDrift
  rw [show (1 : ℚ) - 0 = 1 by norm_num, smulMat_one]
  exact addMat_smul_zero_right (base t x c) (guided t x c) (h t x)

theorem sample_forward_process_guidance_one (solver : SolverKind)
    (integrate : Integrator) (gaussian : Nat → Mat) (base guided : ModelFn)
    (x_size : Nat) (t_span : List ℚ) (batch_size : Option (List Nat))
    (x_0 condition : Option Mat) (wg : Bool)
    (h : ∀ (c : Option Mat) (t : ℚ) (x : Mat),
      matShape (base t x c) = matShape (guided t x c)) :
    sample_forward_process solver integrate gaussian base guided x_size
        t_span batch_size x_0 condition wg 1
      = single_model_sample_forward_process solver integrate gaussian guided
          x_size t_span batch_size x_0 condition wg := by
  have hd : ∀ (cr : Option Mat),
      guidedDrift base guided cr 1 = fun t x => guided t x cr :=
    fun cr => guidedDrift_one base guided cr (fun t x => h cr t x)
  unfold sample_forward_process single_model_sample_forward_process
    sample_forward_process_core
  dsimp only
  repeat' split
  all_goals first | rfl | (rw [hd]) | (exfalso; simp_all)

theorem sample_forward_process_guidance_zero (solver : SolverKind)
    (integrate : Integrator) (gaussian : Nat → Mat) (base guided : ModelFn)
    (x_size : Nat) (t_span : List ℚ) (batch_size : Option (List Nat))
    (x_0 condition : Option Mat) (wg : Bool)
    (h : ∀ (c : Option Mat) (t : ℚ) (x : Mat),
      matShape (base t x c) = matShape (guided t x c)) :
    sample_forward_process solver integrate gaussian base guided x_size
        t_span batch_size x_0 condition wg 0
      = single_model_sample_forward_process solver integrate gaussian base
          x_size t_span batch_size x_0 condition wg := by
  have hd : ∀ (cr : Option Mat),
      guidedDrift base guided cr 0 = fun t x => base t x cr :=
    fun cr => guidedDrift_zero base guided cr (fun t x => h cr t x)
  unfold sample_forward_process single_model_sample_forward_process
    sample_forward_process_core
  dsimp only
  repeat' split
  all_goals first | rfl | (rw [hd]) | (exfalso; simp_all)

/-- Claim C5: the special-case dispatch of GuidedPolicy.sample agrees with
the general blended path when the drift models produce equally shaped
outputs: at guidance scale 1.0 the direct call to guided_model.sample equals
sampling the blended model, whose drift is (1 - 1) * base + 1 * guided =
guided, and at guidance scale 0.0 the direct call to base_model.sample
equals the blend (1 - 0) * base + 0 * guided = base, with the same initial
noise x_0 drawn by the base model gaussian generator and the same solver. -/
theorem C5_guided_policy_dispatch (solver : SolverKind)
    (integrate : Integrator) (gaussian : Nat → Mat) (base guided : ModelFn)
    (x_size : Nat) (t_span : List ℚ) (batch_size : Option (List Nat))
    (state : Mat)
    (h : ∀ (c : Option Mat) (t : ℚ) (x : Mat),
      matShape (base t x c) = matShape (guided t x c)) :
    guided_policy_sample solver integrate gaussian base guided x_size t_span
        batch_size state 0
      = sample solver integrate gaussian base guided x_size t_span batch_size
          (some (gaussian state.length)) (some state) false 0
    ∧ guided_policy_sample solver integrate gaussian base guided x_size
        t_span batch_size state 1
      = sample solver integrate gaussian base guided x_size t_span batch_size
          (some (gaussian state.length)) (some state) false 1 := by
  constructor
  · unfold guided_policy_sample
    rw [if_pos rfl]
    unfold single_model_sample sample
    rw [sample_forward_process_guidance_zero solver integrate gaussian base
      guided x_size t_span batch_size (some (gaussian state.length))
      (some state) false h]
  · unfold guided_policy_sample
    rw [if_neg one_ne_zero, if_pos rfl]
    unfold single_model_sample sample
    rw [sample_forward_process_guidance_one solver integrate gaussian base
      guided x_size t_span batch_size (some (gaussian state.length))
      (some state) false h]

/-- Claim C5 witness: concrete models with identical output shapes; the
dispatch at guidance scales 0 and 1 equals the blended-model sampling with
the same initial noise. -/
theorem C5_guided_policy_dispatch_witness :
    guided_policy_sample (SolverKind.odeSolver false) (fun _ x _ => [x])
        (fun n => List.replicate n [0]) (fun _ x _ => x) (fun _ x _ => x)
        1 [] none [[1]] 0
      = sample (SolverKind.odeSolver false) (fun _ x _ => [x])
          (fun n => List.replicate n [0]) (fun _ x _ => x) (fun _ x _ => x)
          1 [] none (some [[0]]) (some [[1]]) false 0
    ∧ guided_policy_sample (SolverKind.odeSolver false) (fun _ x _ => [x])
        (fun n => List.replicate n [0]) (fun _ x _ => x) (fun _ x _ => x)
        1 [] none [[1]] 1
      = sample (SolverKind.odeSolver false) (fun _ x _ => [x])
          (fun n => List.replicate n [0]) (fun _ x _ => x) (fun _ x _ => x)
          1 [] none (some [[0]]) (some [[1]]) false 1 :=
  C5_guided_policy_dispatch (SolverKind.odeSolver false) (fun _ x _ => [x])
    (fun n => List.replicate n [0]) (fun _ x _ => x) (fun _ x _ => x)
    1 [] none [[1]] (fun _ _ _ => rfl)

end GRL
